import Mathlib

/-!
Verification development for the dispatch/retry engine of
`excelFinal.py` (HWUM WhatsApp Blaster).

The Python source is shallowly embedded below.  Pure helpers
(`parse_spintax`, `personalize_message`, `normalize_value`) become Lean
functions on `List Char` / `String`.  The browser/Selenium side effects of
`send_text_message` and `attach_files` are abstracted as an oracle
(`Channel`); each worker produces an explicit event trace (`Ev`) recording
channel invocations and status writes, so that the per-contact state
machine of `process_contact` and the two worker loops can be reasoned
about directly.  The Excel status store (`update_excel_status`) is
embedded as a pure function on an in-memory sheet; the file-lock probe and
`threading.Lock` around it are I/O concerns outside this functional model.
Randomness (`random.choice`) is modelled by an explicit choice stream
`σ : Nat → Nat`, the i-th draw over n alternatives picking index `σ i % n`.
-/

namespace ExcelBlaster

/-- Left brace character (written via escape so that braces never appear
in string or char literals of this file). -/
def lbrace : Char := '\x7b'

/-- Right brace character. -/
def rbrace : Char := '\x7d'

/-- Python `str.strip` whitespace class restricted to ASCII
(space, tab, newline, carriage return, vertical tab, form feed). -/
def isPyWs (c : Char) : Bool :=
  c == ' ' || c == '\t' || c == '\n' || c == '\r' || c == '\x0b' || c == '\x0c'

/-- Python `str.strip()` on a character list: drop leading and trailing
whitespace. -/
def pyStrip (l : List Char) : List Char :=
  ((l.dropWhile isPyWs).reverse.dropWhile isPyWs).reverse

/-- Python `str.strip()` on a `String`. -/
def pyStripS (s : String) : String := String.mk (pyStrip s.data)

/-- Python `"…".split("|")`: split a character list at every pipe.
Always returns at least one (possibly empty) piece, as in Python. -/
def splitPipe : List Char → List (List Char)
  | [] => [[]]
  | c :: rest =>
    if c == '|' then [] :: splitPipe rest
    else
      match splitPipe rest with
      | [] => [[c]]
      | p :: ps => (c :: p) :: ps

/-- Characters allowed inside a spintax group: the regex character class
`[^{}\[\]]` of `parse_spintax` (anything but braces and square brackets). -/
def isSpinChar (c : Char) : Bool :=
  !(c == lbrace || c == rbrace || c == '[' || c == ']')

/-- Whether, right after an opening `[`, the rest of the text matches
`([^{}\[\]]*)\]`: a maximal run of group characters followed by `]`.
(The regex is greedy and `]` is excluded from the class, so no
backtracking can produce a different match.) -/
def isMatchAt (rest : List Char) : Bool :=
  (rest.dropWhile isSpinChar).head? == some ']'

/-- Number of square-bracket characters in the text; the termination
measure of the `parse_spintax` rescan loop. -/
def countBr (l : List Char) : Nat :=
  (l.filter (fun c => c == '[' || c == ']')).length

/-- Model of `re.search(r"\[([^{}\[\]]*)\]", text)` viewed as a Boolean: does some
position of the text start a spintax-group match? -/
def hasGroup : List Char → Bool
  | [] => false
  | c :: rest => (c == '[' && isMatchAt rest) || hasGroup rest

/-- One `re.sub` pass of `parse_spintax`: replace every (non-overlapping,
left-to-right) match of `\[([^{}\[\]]*)\]` by a randomly chosen
alternative of its `|`-split content, stripped of whitespace.  `σ` is the
random stream, `k` the index of the next draw.  `fuel` bounds the scan;
each step consumes at least one character, so `fuel = l.length` is exact
(see `subAllF_fuel_congr`). -/
def subAllF (σ : Nat → Nat) : Nat → Nat → List Char → List Char × Nat
  | 0, k, l => (l, k)
  | fuel+1, k, l =>
    match l with
    | [] => ([], k)
    | c :: rest =>
      if c == '[' && isMatchAt rest then
        let content := rest.takeWhile isSpinChar
        let rest2 := (rest.dropWhile isSpinChar).tail
        let alts := (splitPipe content).map pyStrip
        let chosen := alts.getD (σ k % alts.length) []
        let r := subAllF σ fuel (k+1) rest2
        (chosen ++ r.1, r.2)
      else
        let r := subAllF σ fuel k rest
        (c :: r.1, r.2)

/-- Model of `re.sub(pattern, choice, text)`: one full substitution pass. -/
def subAll (σ : Nat → Nat) (k : Nat) (l : List Char) : List Char × Nat :=
  subAllF σ l.length k l

/-- The `while re.search(pattern, text): text = re.sub(...)` loop of
`parse_spintax`, with an iteration bound.  Each iteration removes at least
two bracket characters (see `subAll_countBr_lt`), so `fuel = countBr l`
iterations always reach the loop's exit condition
(`spintaxFuel_no_group` / `spintaxFuel_fuel_congr`): the bound is never
the reason the loop stops. -/
def spintaxFuel (σ : Nat → Nat) : Nat → Nat → List Char → List Char × Nat
  | 0, k, l => (l, k)
  | fuel+1, k, l =>
    if hasGroup l then
      let r := subAll σ k l
      spintaxFuel σ fuel r.2 r.1
    else (l, k)

/-- Model of `parse_spintax` on a character list (source lines 204-211). -/
def parse_spintaxL (σ : Nat → Nat) (l : List Char) : List Char :=
  (spintaxFuel σ (countBr l) 0 l).1

/-- Model of `parse_spintax(text)`: process spintax `[option1|option2|...]`
groups, repeatedly substituting until no group remains. -/
def parse_spintax (σ : Nat → Nat) (s : String) : String :=
  String.mk (parse_spintaxL σ s.data)

/-- Value of a hexadecimal digit character, if it is one. -/
def hexVal (c : Char) : Option Nat :=
  if '0' ≤ c ∧ c ≤ '9' then some (c.toNat - '0'.toNat)
  else if 'a' ≤ c ∧ c ≤ 'f' then some (c.toNat - 'a'.toNat + 10)
  else if 'A' ≤ c ∧ c ≤ 'F' then some (c.toNat - 'A'.toNat + 10)
  else none

/-- Uppercase hexadecimal digit for a value below 16. -/
def hexDigit (n : Nat) : Char :=
  if n < 10 then Char.ofNat ('0'.toNat + n) else Char.ofNat ('A'.toNat + n - 10)

/-- Model of `urllib.parse.unquote_plus` restricted to single-byte escapes:
`+` becomes a space, `%XY` with two hex digits becomes the character of
byte `XY`, and an invalid escape is left as literal text.  (Multi-byte
UTF-8 escape sequences are outside the model; all templates considered by
the claims are ASCII.) -/
def unquote_plusL : List Char → List Char
  | [] => []
  | '+' :: rest => ' ' :: unquote_plusL rest
  | '%' :: a :: b :: rest =>
    match hexVal a, hexVal b with
    | some x, some y => Char.ofNat (16 * x + y) :: unquote_plusL rest
    | _, _ => '%' :: unquote_plusL (a :: b :: rest)
  | c :: rest => c :: unquote_plusL rest

/-- Characters `urllib.parse.quote_plus` leaves unescaped
(alphanumerics and `_.-~`). -/
def isUrlSafe (c : Char) : Bool :=
  c.isAlphanum || c == '_' || c == '.' || c == '-' || c == '~'

/-- Model of `urllib.parse.quote_plus` restricted to single-byte characters:
space becomes `+`, safe characters stay, anything else becomes `%XY`. -/
def quote_plusL : List Char → List Char
  | [] => []
  | c :: rest =>
    if c == ' ' then '+' :: quote_plusL rest
    else if isUrlSafe c then c :: quote_plusL rest
    else '%' :: hexDigit (c.toNat / 16) :: hexDigit (c.toNat % 16) :: quote_plusL rest

/-- First-match association lookup, modelling both Python `dict`
indexing (`docs_mapping[doc_code]` plus the `in` test) and the pandas
row lookup `df.loc[df[code_col] == code, msg_col].iloc[0]` (first
matching row). -/
def lookupA {α : Type} (l : List (String × α)) (k : String) : Option α :=
  (l.find? (fun p => p.1 == k)).map (·.2)

/-- Python `str.format(name=…, sender=…, course=…)`, the fragment used by
`personalize_message`: `\x7b\x7b` and `\x7d\x7d` are literal braces, a
`\x7b`name`\x7d` field is replaced by the keyword argument `name`, an
unknown field name raises `KeyError` (modelled as `.error` carrying the
name), and an unmatched brace raises `ValueError`.  Conversion and
format-spec suffixes are not modelled: a field whose text is not exactly
a provided keyword is an error.  `fuel = l.length` is exact since every
step consumes at least one character. -/
def pyFormatF (kwargs : List (String × String)) : Nat → List Char → Except String (List Char)
  | _, [] => .ok []
  | 0, l => .ok l
  | fuel+1, c :: rest =>
    if c == lbrace then
      match rest with
      | d :: rest1 =>
        if d == lbrace then
          Except.map (lbrace :: ·) (pyFormatF kwargs fuel rest1)
        else
          let fieldName := rest.takeWhile (fun x => !(x == rbrace))
          match rest.dropWhile (fun x => !(x == rbrace)) with
          | _ :: rest2 =>
            match lookupA kwargs (String.mk fieldName) with
            | some v => Except.map (v.data ++ ·) (pyFormatF kwargs fuel rest2)
            | none => .error (String.mk fieldName)
          | [] => .error "ValueError"
      | [] => .error "ValueError"
    else if c == rbrace then
      match rest with
      | d :: rest1 =>
        if d == rbrace then Except.map (rbrace :: ·) (pyFormatF kwargs fuel rest1)
        else .error "ValueError"
      | [] => .error "ValueError"
    else
      Except.map (c :: ·) (pyFormatF kwargs fuel rest)

/-- Entry point of the `str.format` model. -/
def pyFormat (kwargs : List (String × String)) (l : List Char) : Except String (List Char) :=
  pyFormatF kwargs l.length l

/-- A contact row of the LIST sheet, as `process_contact` receives it
(string attributes already normalized by `get_contacts`; `status` is the
numeric status cell, `none` when blank/NaN). -/
structure Contact where
  phone : String
  name : String
  sender : String
  course : String
  msg_code : String
  doc_code : String
  media_code : String
  status : Option Int
deriving DecidableEq, Repr

/-- Outcome of `send_text_message`'s browser interaction: the Python
function returns `True` (sent), the string `"INVALID"` (invalid number),
or `False` (soft failure / timeout). -/
inductive SendResult where
  | sentOk
  | invalidNum
  | failed
deriving DecidableEq, Repr

/-- The messaging channel oracle: the observable behaviour of the
Selenium/WhatsApp side of `send_text_message` (after the message is
rendered) and of `attach_files`. -/
structure Channel where
  sendText : String → String → SendResult
  attachFiles : String → List String → String → Bool

/-- The slice of the SETTINGS sheet the dispatch decisions depend on:
the two attach-dialog selector strings (the pacing timers only feed
`time.sleep`, outside the functional model). -/
structure Settings where
  xpath_docs : String
  xpath_media : String
deriving DecidableEq, Repr

/-- Value of `CONFIG["STATUS_VALUES"]["INVALID"]`. -/
def STATUS_INVALID : Int := 0

/-- Value of `CONFIG["STATUS_VALUES"]["SENT"]`. -/
def STATUS_SENT : Int := 1

/-- Value of `CONFIG["STATUS_VALUES"]["RETRY"]`. -/
def STATUS_RETRY : Int := 2

/-- Observable event of a worker: a `send_text_message` channel
invocation, an `attach_files` channel invocation, or an
`update_excel_status` status write. -/
inductive Ev where
  | sendTextEv (phone : String)
  | attachEv (phone : String) (files : List String) (xpath : String)
  | statusEv (phone : String) (status : Int)
deriving DecidableEq, Repr

/-- Model of `personalize_message(encoded_template, contact)` (source lines
213-224): percent-decode, substitute the `name`/`sender`/`course`
placeholders, process spintax, percent-re-encode.  A `KeyError` /
`ValueError` from `str.format` propagates as `.error`. -/
def personalize_message (σ : Nat → Nat) (encoded_template : String) (c : Contact) :
    Except String String :=
  let decoded := unquote_plusL encoded_template.data
  match pyFormat [("name", c.name), ("sender", c.sender), ("course", c.course)] decoded with
  | .error e => .error e
  | .ok personalized => .ok (String.mk (quote_plusL (parse_spintaxL σ personalized)))

/-- Model of `send_text_message` (source lines 412-455): render the message
(`personalize_message` is called before any try-block, so its error
propagates), then interact with the channel. -/
def send_text_message (ch : Channel) (σ : Nat → Nat) (phone : String)
    (encoded_message : String) (c : Contact) : Except String SendResult :=
  match personalize_message σ encoded_message c with
  | .error e => .error e
  | .ok finalMsg => .ok (ch.sendText phone finalMsg)

/-- One attachment sub-step of `process_contact` (source lines 533-543):
`if code != "0" and code in mapping: result = attach_files(...);
sent = sent or result`. -/
def attach_step (ch : Channel) (phone code : String)
    (mapping : List (String × List String)) (xpath : String) (sent0 : Bool) :
    List Ev × Bool :=
  if code ≠ "0" then
    match lookupA mapping code with
    | some files => ([Ev.attachEv phone files xpath], sent0 || ch.attachFiles phone files xpath)
    | none => ([], sent0)
  else ([], sent0)

/-- Tail of `process_contact` after the text sub-step (source lines
533-546): the two attachment sub-steps followed by the unconditional
final status write, `SENT` if something was sent else `RETRY`. -/
def finish_contact (ch : Channel) (phone doc_code media_code : String)
    (docs media : List (String × List String)) (st : Settings)
    (evs0 : List Ev) (sent0 : Bool) : List Ev × Option String :=
  (evs0 ++ (attach_step ch phone doc_code docs st.xpath_docs sent0).1 ++
      (attach_step ch phone media_code media st.xpath_media
        (attach_step ch phone doc_code docs st.xpath_docs sent0).2).1 ++
      [Ev.statusEv phone
        (if (attach_step ch phone media_code media st.xpath_media
              (attach_step ch phone doc_code docs st.xpath_docs sent0).2).2
          then STATUS_SENT else STATUS_RETRY)], none)

/-- Model of `process_contact` (source lines 501-550).  Returns the event trace
and, in the second component, an uncaught exception (only a render
failure escapes in this model; the channel's soft failures are folded
into `SendResult`/`Bool` as in the source).  Note the function is
pass-agnostic: the same final `SENT`-or-`RETRY` write runs in both the
initial and the retry pass. -/
def process_contact (ch : Channel) (σ : Nat → Nat) (c : Contact)
    (messages : List (String × String)) (docs media : List (String × List String))
    (st : Settings) : List Ev × Option String :=
  if pyStripS c.msg_code = "0" ∧ pyStripS c.doc_code = "0" ∧ pyStripS c.media_code = "0" then
    ([Ev.statusEv c.phone STATUS_SENT], none)
  else
    if pyStripS c.msg_code ≠ "0" then
      match lookupA messages (pyStripS c.msg_code) with
      | some encoded_msg =>
        match send_text_message ch σ c.phone encoded_msg c with
        | .error e => ([], some e)
        | .ok SendResult.invalidNum =>
          ([Ev.sendTextEv c.phone, Ev.statusEv c.phone STATUS_INVALID], none)
        | .ok SendResult.sentOk =>
          finish_contact ch c.phone (pyStripS c.doc_code) (pyStripS c.media_code)
            docs media st [Ev.sendTextEv c.phone] true
        | .ok SendResult.failed =>
          finish_contact ch c.phone (pyStripS c.doc_code) (pyStripS c.media_code)
            docs media st [Ev.sendTextEv c.phone] false
      | none =>
        finish_contact ch c.phone (pyStripS c.doc_code) (pyStripS c.media_code)
          docs media st [] false
    else
      finish_contact ch c.phone (pyStripS c.doc_code) (pyStripS c.media_code)
        docs media st [] false

/-- Model of `process_contacts_thread` (pass 1, source lines 585-609): skip
contacts already `INVALID`/`SENT`, run `process_contact`, and force
`RETRY` at the loop boundary when it raised.  `σ i` is the random stream
of the i-th contact; the stop event is not modelled (no stop requested). -/
def process_contacts_thread (ch : Channel) (σ : Nat → Nat → Nat)
    (messages : List (String × String)) (docs media : List (String × List String))
    (st : Settings) : Nat → List Contact → List Ev
  | _, [] => []
  | i, c :: rest =>
    if c.status = some STATUS_INVALID ∨ c.status = some STATUS_SENT then
      process_contacts_thread ch σ messages docs media st (i+1) rest
    else
      (process_contact ch (σ i) c messages docs media st).1 ++
        (match (process_contact ch (σ i) c messages docs media st).2 with
          | some _ => [Ev.statusEv c.phone STATUS_RETRY]
          | none => []) ++
        process_contacts_thread ch σ messages docs media st (i+1) rest

/-- Model of `retry_failed_contacts_thread` (pass 2, source lines 611-632): run
`process_contact` on every row of the RETRY set — the same pass-agnostic
procedure as pass 1 — and force `INVALID` at the loop boundary only when
it raised. -/
def retry_failed_contacts_thread (ch : Channel) (σ : Nat → Nat → Nat)
    (messages : List (String × String)) (docs media : List (String × List String))
    (st : Settings) : Nat → List Contact → List Ev
  | _, [] => []
  | i, c :: rest =>
    (process_contact ch (σ i) c messages docs media st).1 ++
      (match (process_contact ch (σ i) c messages docs media st).2 with
        | some _ => [Ev.statusEv c.phone STATUS_INVALID]
        | none => []) ++
      retry_failed_contacts_thread ch σ messages docs media st (i+1) rest

/-- The status values written for a given phone, in trace order. -/
def statusWrites (phone : String) : List Ev → List Int
  | [] => []
  | Ev.statusEv p s :: rest =>
    if p = phone then s :: statusWrites phone rest else statusWrites phone rest
  | _ :: rest => statusWrites phone rest

/-- The status a phone ends a pass with: the last status write of the
trace (update targets are looked up by phone in the store). -/
def lastStatus (phone : String) (evs : List Ev) : Option Int :=
  (statusWrites phone evs).getLast?

/-- Whether an event is a channel invocation (either kind). -/
def isChannelEv : Ev → Bool
  | Ev.sendTextEv _ => true
  | Ev.attachEv _ _ _ => true
  | Ev.statusEv _ _ => false

/-- Number of `MessagingChannel` invocations in a trace. -/
def channelCalls (evs : List Ev) : Nat := (evs.filter isChannelEv).length

/-- Whether an event is an `attach_files` invocation. -/
def isAttachEv : Ev → Bool
  | Ev.attachEv _ _ _ => true
  | _ => false

/-- Number of `attach_files` invocations in a trace. -/
def attachCalls (evs : List Ev) : Nat := (evs.filter isAttachEv).length

/-- A Python value as it can sit in a worksheet cell, as far as
`normalize_value` distinguishes them: a string, an int, a float with an
integral value, a non-integral float (characterized by its `str()`
rendering), or `None` (empty cell). -/
inductive PyVal where
  | pstr (s : String)
  | pint (n : Int)
  | pfloatW (n : Int)
  | pfloatR (r : String)
  | pnone
deriving DecidableEq, Repr

/-- Model of `normalize_value` (source lines 154-158): whole-valued floats render
as their integer string; everything else as `str(value).strip()`. -/
def normalize_value : PyVal → String
  | PyVal.pstr s => pyStripS s
  | PyVal.pint n => pyStripS (toString n)
  | PyVal.pfloatW n => pyStripS (toString n)
  | PyVal.pfloatR r => pyStripS r
  | PyVal.pnone => pyStripS "None"

/-- The LIST worksheet: the header row (cell strings) and the data rows
(`sheet.iter_rows(min_row=2)`). -/
structure Sheet where
  headers : List String
  rows : List (List PyVal)
deriving DecidableEq, Repr

/-- The row-update loop of `update_excel_status` (source lines 188-192):
walk the rows, set the status cell of the first row whose normalized
phone cell equals the target, and `break`; `none` when no row matches. -/
def findUpdate (pIdx sIdx : Nat) (phone : String) (newStatus : Int) :
    List (List PyVal) → Option (List (List PyVal))
  | [] => none
  | r :: rest =>
    if normalize_value (r.getD pIdx PyVal.pnone) = phone then
      some (r.set sIdx (PyVal.pint newStatus) :: rest)
    else
      (findUpdate pIdx sIdx phone newStatus rest).map (r :: ·)

/-- Model of `update_excel_status` (source lines 170-199), as a function from the
persisted sheet to the persisted sheet: column indices come from
`headers.index(...)`, the first matching row's status cell is mutated and
the workbook saved (`true`), otherwise nothing is written back and only a
warning is logged (`false`).  The 3-attempt file-lock probe and the
process-wide `excel_lock` serialize the I/O and are outside this
functional model; the enclosing `try/except` means no error reaches the
caller. -/
def update_excel_status (sh : Sheet) (phone : String) (newStatus : Int) :
    Sheet × Bool :=
  match findUpdate (sh.headers.indexOf "Phone Number") (sh.headers.indexOf "Status")
      phone newStatus sh.rows with
  | some newRows => ({ sh with rows := newRows }, true)
  | none => (sh, false)

/-- Model of `contacts.iloc[::2]` (source line 655): the rows at even positions
0, 2, 4, …, in order. -/
def even_contacts {α : Type} : List α → List α
  | [] => []
  | [a] => [a]
  | a :: _ :: t => a :: even_contacts t

/-- Model of `contacts.iloc[1::2]` (source line 656): the rows at odd positions
1, 3, 5, …, in order. -/
def odd_contacts {α : Type} : List α → List α
  | [] => []
  | [_] => []
  | _ :: b :: t => b :: odd_contacts t

/-! ### Helper lemmas: spintax termination measure -/

theorem mem_dropWhile {α : Type} (p : α → Bool) (l : List α) (a : α)
    (h : a ∈ l.dropWhile p) : a ∈ l := by
  induction l with
  | nil => simp at h
  | cons x xs ih =>
    rw [List.dropWhile_cons] at h
    by_cases hx : p x = true
    · simp only [hx, if_true] at h
      exact List.mem_cons_of_mem _ (ih h)
    · simp only [hx, if_false] at h
      exact h

theorem mem_pyStrip {c : Char} {l : List Char} (h : c ∈ pyStrip l) : c ∈ l := by
  unfold pyStrip at h
  have h1 := List.mem_reverse.1 h
  have h2 := mem_dropWhile _ _ _ h1
  have h3 := List.mem_reverse.1 h2
  exact mem_dropWhile _ _ _ h3

theorem splitPipe_ne_nil : ∀ l : List Char, splitPipe l ≠ [] := by
  intro l
  induction l with
  | nil => simp [splitPipe]
  | cons c rest ih =>
    simp only [splitPipe]
    by_cases hc : (c == '|') = true
    · simp [hc]
    · simp only [hc, if_false]
      cases hsp : splitPipe rest with
      | nil => simp
      | cons p ps => simp

theorem mem_splitPipe {c : Char} : ∀ {l p : List Char}, p ∈ splitPipe l → c ∈ p → c ∈ l := by
  intro l
  induction l with
  | nil =>
    intro p hp hc
    simp [splitPipe] at hp
    subst hp
    simp at hc
  | cons d rest ih =>
    intro p hp hc
    simp only [splitPipe] at hp
    by_cases hd : (d == '|') = true
    · rw [if_pos hd] at hp
      rcases List.mem_cons.1 hp with h | h
      · subst h; simp at hc
      · exact List.mem_cons_of_mem _ (ih h hc)
    · rw [if_neg hd] at hp
      cases hsp : splitPipe rest with
      | nil => exact absurd hsp (splitPipe_ne_nil rest)
      | cons q qs =>
        rw [hsp] at hp
        rcases List.mem_cons.1 hp with h | h
        · subst h
          rcases List.mem_cons.1 hc with h2 | h2
          · subst h2; exact List.mem_cons_self _ _
          · exact List.mem_cons_of_mem _ (ih (hsp ▸ List.mem_cons_self q qs) h2)
        · exact List.mem_cons_of_mem _ (ih (hsp ▸ List.mem_cons_of_mem _ h) hc)

theorem countBr_append (l1 l2 : List Char) :
    countBr (l1 ++ l2) = countBr l1 + countBr l2 := by
  simp [countBr, List.filter_append]

theorem countBr_cons (c : Char) (l : List Char) :
    countBr (c :: l) = (if c == '[' || c == ']' then 1 else 0) + countBr l := by
  simp only [countBr, List.filter_cons]
  split
  · simp [Nat.add_comm]
  · simp

theorem countBr_eq_zero_of_spin {l : List Char}
    (h : ∀ c ∈ l, isSpinChar c = true) : countBr l = 0 := by
  simp only [countBr, List.length_eq_zero]
  rw [List.filter_eq_nil_iff]
  intro a ha
  have := h a ha
  simp only [isSpinChar, lbrace, rbrace, Bool.not_eq_true', Bool.or_eq_false_iff] at this
  simp [this.1.2, this.2]

theorem countBr_pos_of_mem {l : List Char} (h : ']' ∈ l) : 1 ≤ countBr l := by
  have : ']' ∈ l.filter (fun c => c == '[' || c == ']') := by
    rw [List.mem_filter]
    exact ⟨h, by decide⟩
  have hne : l.filter (fun c => c == '[' || c == ']') ≠ [] := by
    intro he
    rw [he] at this
    simp at this
  have := List.length_pos.2 hne
  simpa [countBr] using this

theorem isMatchAt_decomp {rest : List Char} (h : isMatchAt rest = true) :
    rest.dropWhile isSpinChar = ']' :: (rest.dropWhile isSpinChar).tail := by
  unfold isMatchAt at h
  cases hd : rest.dropWhile isSpinChar with
  | nil => rw [hd] at h; simp at h
  | cons x xs =>
    rw [hd] at h
    simp only [List.head?, Option.some.injEq, beq_iff_eq] at h
    subst h
    simp

theorem chosen_all_spin (i : Nat) {content : List Char}
    (hcontent : ∀ c ∈ content, isSpinChar c = true) :
    ∀ c ∈ ((splitPipe content).map pyStrip).getD i [], isSpinChar c = true := by
  intro c hc
  unfold List.getD at hc
  cases hq : ((splitPipe content).map pyStrip).get? i with
  | none => rw [hq] at hc; simp at hc
  | some p =>
    rw [hq] at hc
    simp only [Option.getD_some] at hc
    have hpmem : p ∈ (splitPipe content).map pyStrip := List.get?_mem hq
    rcases List.mem_map.1 hpmem with ⟨q, hq1, hq2⟩
    subst hq2
    exact hcontent c (mem_splitPipe hq1 (mem_pyStrip hc))

theorem countBr_chosen_zero (i : Nat) {rest : List Char} :
    countBr (((splitPipe (rest.takeWhile isSpinChar)).map pyStrip).getD i []) = 0 :=
  countBr_eq_zero_of_spin
    (chosen_all_spin i (fun _ hc => List.mem_takeWhile_imp hc))

theorem countBr_rest_decomp {rest : List Char} (h : isMatchAt rest = true) :
    countBr rest = 1 + countBr ((rest.dropWhile isSpinChar).tail) := by
  conv_lhs => rw [← List.takeWhile_append_dropWhile (p := isSpinChar) (l := rest)]
  rw [countBr_append,
    countBr_eq_zero_of_spin (fun _ hc => List.mem_takeWhile_imp hc)]
  rw [isMatchAt_decomp h, countBr_cons]
  simp

theorem subAllF_countBr (σ : Nat → Nat) :
    ∀ fuel k l, countBr (subAllF σ fuel k l).1 ≤ countBr l ∧
      (l.length ≤ fuel → hasGroup l = true →
        countBr (subAllF σ fuel k l).1 + 2 ≤ countBr l) := by
  intro fuel
  induction fuel with
  | zero =>
    intro k l
    refine ⟨by simp [subAllF], ?_⟩
    intro hlen hg
    have : l = [] := List.length_eq_zero.1 (Nat.le_zero.1 hlen)
    subst this
    simp [hasGroup] at hg
  | succ fuel ih =>
    intro k l
    cases l with
    | nil =>
      refine ⟨by simp [subAllF], ?_⟩
      intro _ hg
      simp [hasGroup] at hg
    | cons c rest =>
      by_cases hm : (c == '[' && isMatchAt rest) = true
      · have hm' : c = '[' ∧ isMatchAt rest = true := by simpa using hm
        have hc : c = '[' := hm'.1
        have hmm : isMatchAt rest = true := hm'.2
        have heq : subAllF σ (fuel+1) k (c :: rest) =
            ((((splitPipe (rest.takeWhile isSpinChar)).map pyStrip).getD
                (σ k % ((splitPipe (rest.takeWhile isSpinChar)).map pyStrip).length) []) ++
              (subAllF σ fuel (k+1) ((rest.dropWhile isSpinChar).tail)).1,
              (subAllF σ fuel (k+1) ((rest.dropWhile isSpinChar).tail)).2) := by
          simp only [subAllF]
          rw [if_pos hm]
        have hcount : countBr (subAllF σ (fuel+1) k (c :: rest)).1 ≤
            countBr ((rest.dropWhile isSpinChar).tail) := by
          rw [heq]
          simp only [countBr_append, countBr_chosen_zero]
          simpa using (ih (k+1) ((rest.dropWhile isSpinChar).tail)).1
        have htotal : countBr (c :: rest) =
            2 + countBr ((rest.dropWhile isSpinChar).tail) := by
          rw [countBr_cons, countBr_rest_decomp hmm, hc]
          simp
          omega
        exact ⟨by omega, fun _ _ => by omega⟩
      · have heq : subAllF σ (fuel+1) k (c :: rest) =
            (c :: (subAllF σ fuel k rest).1, (subAllF σ fuel k rest).2) := by
          simp only [subAllF]
          rw [if_neg hm]
        have h1 := (ih k rest).1
        constructor
        · rw [heq, countBr_cons, countBr_cons]
          by_cases hc2 : (c == '[' || c == ']') = true
          · rw [if_pos hc2]; omega
          · rw [if_neg hc2]; omega
        · intro hlen hg
          have hg' : hasGroup rest = true := by
            have : ((c == '[' && isMatchAt rest) || hasGroup rest) = true := hg
            rcases Bool.or_eq_true_iff.1 this with h | h
            · exact absurd h hm
            · exact h
          have hlen' : rest.length ≤ fuel := by
            simpa using Nat.le_of_succ_le_succ hlen
          have h2 := (ih k rest).2 hlen' hg'
          rw [heq, countBr_cons, countBr_cons]
          by_cases hc2 : (c == '[' || c == ']') = true
          · rw [if_pos hc2]; omega
          · rw [if_neg hc2]; omega

theorem subAll_countBr_add_two (σ : Nat → Nat) (k : Nat) (l : List Char)
    (hg : hasGroup l = true) : countBr (subAll σ k l).1 + 2 ≤ countBr l :=
  (subAllF_countBr σ l.length k l).2 (Nat.le_refl _) hg

theorem hasGroup_two_le : ∀ {l : List Char}, hasGroup l = true → 2 ≤ countBr l := by
  intro l
  induction l with
  | nil => intro hg; simp [hasGroup] at hg
  | cons c rest ih =>
    intro hg
    have : ((c == '[' && isMatchAt rest) || hasGroup rest) = true := hg
    rcases Bool.or_eq_true_iff.1 this with h | h
    · have h' : c = '[' ∧ isMatchAt rest = true := by simpa using h
      have hc : c = '[' := h'.1
      have hmm : isMatchAt rest = true := h'.2
      have hmem : ']' ∈ rest := by
        have := isMatchAt_decomp hmm
        have hin : ']' ∈ rest.dropWhile isSpinChar := by
          rw [this]; exact List.mem_cons_self _ _
        exact mem_dropWhile _ _ _ hin
      have := countBr_pos_of_mem hmem
      rw [countBr_cons, hc]
      simp
      omega
    · have := ih h
      rw [countBr_cons]
      split <;> omega

theorem hasGroup_false_of_countBr_zero {l : List Char} (h : countBr l = 0) :
    hasGroup l = false := by
  by_contra hne
  have : hasGroup l = true := by
    revert hne; cases hasGroup l <;> simp
  have := hasGroup_two_le this
  omega

theorem spintaxFuel_no_group (σ : Nat → Nat) :
    ∀ fuel k l, countBr l ≤ fuel → hasGroup (spintaxFuel σ fuel k l).1 = false := by
  intro fuel
  induction fuel with
  | zero =>
    intro k l h
    simp only [spintaxFuel]
    exact hasGroup_false_of_countBr_zero (Nat.le_zero.1 h)
  | succ fuel ih =>
    intro k l h
    by_cases hg : hasGroup l = true
    · have hsub := subAll_countBr_add_two σ k l hg
      simp only [spintaxFuel, hg, if_true]
      exact ih _ _ (by omega)
    · have hg' : hasGroup l = false := by
        revert hg; cases hasGroup l <;> simp
      simp [spintaxFuel, hg']

theorem spintaxFuel_fuel_congr (σ : Nat → Nat) :
    ∀ fuel k l m, countBr l ≤ fuel →
      spintaxFuel σ (fuel + m) k l = spintaxFuel σ fuel k l := by
  intro fuel
  induction fuel with
  | zero =>
    intro k l m h
    have hg : hasGroup l = false :=
      hasGroup_false_of_countBr_zero (Nat.le_zero.1 h)
    cases m with
    | zero => rfl
    | succ m =>
      rw [Nat.zero_add]
      simp [spintaxFuel, hg]
  | succ fuel ih =>
    intro k l m h
    by_cases hg : hasGroup l = true
    · have hsub := subAll_countBr_add_two σ k l hg
      have harith : (fuel + 1) + m = (fuel + m) + 1 := by omega
      rw [harith]
      simp only [spintaxFuel, hg, if_true]
      exact ih _ _ m (by omega)
    · have hg' : hasGroup l = false := by
        revert hg; cases hasGroup l <;> simp
      have harith : (fuel + 1) + m = (fuel + m) + 1 := by omega
      rw [harith]
      simp [spintaxFuel, hg']

theorem parse_spintax_ab (σ : Nat → Nat) :
    parse_spintax σ "[a|b]" = if σ 0 % 2 = 0 then "a" else "b" := by
  have e1 : parse_spintax σ "[a|b]" =
      String.mk (spintaxFuel σ 1 1 ([['a'], ['b']].getD (σ 0 % 2) [] ++ [])).1 := rfl
  rw [e1]
  rcases Nat.mod_two_eq_zero_or_one (σ 0) with h | h <;> rw [h] <;> rfl

/-! ### Helper lemmas: partitioner -/

theorem twoStepInduction {α : Type} {motive : List α → Prop} (h0 : motive [])
    (h1 : ∀ a, motive [a]) (h2 : ∀ a b t, motive t → motive (a :: b :: t)) :
    ∀ l, motive l
  | [] => h0
  | [a] => h1 a
  | a :: b :: t => h2 a b t (twoStepInduction h0 h1 h2 t)

theorem even_contacts_get? {α : Type} :
    ∀ l : List α, ∀ i, (even_contacts l).get? i = l.get? (2 * i) := by
  intro l
  induction l using twoStepInduction with
  | h0 => simp [even_contacts]
  | h1 a =>
    intro i
    cases i with
    | zero => simp [even_contacts]
    | succ j => simp [even_contacts, Nat.mul_succ]
  | h2 a b t ih =>
    intro i
    cases i with
    | zero => simp [even_contacts]
    | succ j =>
      have : 2 * (j + 1) = (2 * j + 1) + 1 := by omega
      rw [this]
      simpa [even_contacts] using ih j

theorem odd_contacts_get? {α : Type} :
    ∀ l : List α, ∀ i, (odd_contacts l).get? i = l.get? (2 * i + 1) := by
  intro l
  induction l using twoStepInduction with
  | h0 => simp [odd_contacts]
  | h1 a =>
    intro i
    cases i with
    | zero => simp [odd_contacts]
    | succ j => simp [odd_contacts]
  | h2 a b t ih =>
    intro i
    cases i with
    | zero => simp [odd_contacts]
    | succ j =>
      have : 2 * (j + 1) + 1 = (2 * j + 1) + 1 + 1 := by omega
      rw [this]
      simpa [odd_contacts] using ih j

theorem even_contacts_length {α : Type} :
    ∀ l : List α, (even_contacts l).length = (l.length + 1) / 2 := by
  intro l
  induction l using twoStepInduction with
  | h0 => simp [even_contacts]
  | h1 a => simp [even_contacts]
  | h2 a b t ih =>
    simp only [even_contacts, List.length_cons, ih]
    omega

theorem odd_contacts_length {α : Type} :
    ∀ l : List α, (odd_contacts l).length = l.length / 2 := by
  intro l
  induction l using twoStepInduction with
  | h0 => simp [odd_contacts]
  | h1 a => simp [odd_contacts]
  | h2 a b t ih =>
    simp only [odd_contacts, List.length_cons, ih]
    omega

theorem even_append_odd_perm {α : Type} :
    ∀ l : List α, (even_contacts l ++ odd_contacts l).Perm l := by
  intro l
  induction l using twoStepInduction with
  | h0 => simp [even_contacts, odd_contacts]
  | h1 a => simp [even_contacts, odd_contacts]
  | h2 a b t ih =>
    simp only [even_contacts, odd_contacts, List.cons_append]
    refine List.Perm.cons a ?_
    have hmid : (even_contacts t ++ b :: odd_contacts t).Perm
        (b :: (even_contacts t ++ odd_contacts t)) := List.perm_middle
    exact hmid.trans (List.Perm.cons b ih)

theorem even_contacts_enumFrom_parity {α : Type} :
    ∀ (l : List α) (n : Nat) (p : Nat × α),
      p ∈ even_contacts (List.enumFrom n l) → p.1 % 2 = n % 2 := by
  intro l
  induction l using twoStepInduction with
  | h0 => intro n p hp; simp [List.enumFrom, even_contacts] at hp
  | h1 a =>
    intro n p hp
    simp only [List.enumFrom, even_contacts, List.mem_singleton] at hp
    subst hp
    rfl
  | h2 a b t ih =>
    intro n p hp
    simp only [List.enumFrom, even_contacts, List.mem_cons] at hp
    rcases hp with h | h
    · subst h; rfl
    · have := ih (n + 2) p h
      omega

theorem odd_contacts_enumFrom_parity {α : Type} :
    ∀ (l : List α) (n : Nat) (p : Nat × α),
      p ∈ odd_contacts (List.enumFrom n l) → p.1 % 2 = (n + 1) % 2 := by
  intro l
  induction l using twoStepInduction with
  | h0 => intro n p hp; simp [List.enumFrom, odd_contacts] at hp
  | h1 a => intro n p hp; simp [List.enumFrom, odd_contacts] at hp
  | h2 a b t ih =>
    intro n p hp
    simp only [List.enumFrom, odd_contacts, List.mem_cons] at hp
    rcases hp with h | h
    · subst h; omega
    · have := ih (n + 2) p h
      omega

/-! ### Helper lemmas: traces and the status store -/

theorem statusWrites_append (phone : String) :
    ∀ a b : List Ev, statusWrites phone (a ++ b) =
      statusWrites phone a ++ statusWrites phone b := by
  intro a b
  induction a with
  | nil => simp [statusWrites]
  | cons e rest ih =>
    cases e with
    | sendTextEv p => simp [statusWrites, ih]
    | attachEv p f x => simp [statusWrites, ih]
    | statusEv p s =>
      by_cases hp : p = phone
      · simp [statusWrites, hp, ih]
      · simp [statusWrites, hp, ih]

theorem attach_step_sent_of_fail {ch : Channel} (phone code : String)
    (mapping : List (String × List String)) (xpath : String) (sent0 : Bool)
    (hatt : ∀ p f x, ch.attachFiles p f x = false) :
    (attach_step ch phone code mapping xpath sent0).2 = sent0 := by
  unfold attach_step
  by_cases hc : code ≠ "0"
  · rw [if_pos hc]
    cases lookupA mapping code with
    | none => rfl
    | some files => simp [hatt]
  · rw [if_neg hc]

theorem attach_step_statusWrites (ch : Channel) (phone' phone code : String)
    (mapping : List (String × List String)) (xpath : String) (sent0 : Bool) :
    statusWrites phone' (attach_step ch phone code mapping xpath sent0).1 = [] := by
  unfold attach_step
  by_cases hc : code ≠ "0"
  · rw [if_pos hc]
    cases lookupA mapping code with
    | none => rfl
    | some files => simp [statusWrites]
  · rw [if_neg hc]
    rfl

theorem finish_contact_statusWrites (ch : Channel) (phone doc_code media_code : String)
    (docs media : List (String × List String)) (st : Settings)
    (evs0 : List Ev) (sent0 : Bool) (hevs0 : statusWrites phone evs0 = []) :
    statusWrites phone (finish_contact ch phone doc_code media_code docs media st evs0 sent0).1 =
      [if (attach_step ch phone media_code media st.xpath_media
            (attach_step ch phone doc_code docs st.xpath_docs sent0).2).2
        then STATUS_SENT else STATUS_RETRY] := by
  unfold finish_contact
  simp only [statusWrites_append, hevs0, attach_step_statusWrites]
  simp [statusWrites]

theorem finish_contact_exc (ch : Channel) (phone doc_code media_code : String)
    (docs media : List (String × List String)) (st : Settings)
    (evs0 : List Ev) (sent0 : Bool) :
    (finish_contact ch phone doc_code media_code docs media st evs0 sent0).2 = none := rfl

theorem findUpdate_of_no_match (pIdx sIdx : Nat) (phone : String) (newStatus : Int) :
    ∀ rows : List (List PyVal),
      (∀ r ∈ rows, normalize_value (r.getD pIdx PyVal.pnone) ≠ phone) →
      findUpdate pIdx sIdx phone newStatus rows = none := by
  intro rows h
  induction rows with
  | nil => rfl
  | cons r rest ih =>
    have hr := h r (List.mem_cons_self _ _)
    simp only [findUpdate, if_neg hr]
    rw [ih (fun r' hr' => h r' (List.mem_cons_of_mem _ hr'))]
    rfl

theorem findUpdate_first_match (pIdx sIdx : Nat) (phone : String) (newStatus : Int) :
    ∀ (pre : List (List PyVal)) (r : List PyVal) (post : List (List PyVal)),
      (∀ r' ∈ pre, normalize_value (r'.getD pIdx PyVal.pnone) ≠ phone) →
      normalize_value (r.getD pIdx PyVal.pnone) = phone →
      findUpdate pIdx sIdx phone newStatus (pre ++ r :: post) =
        some (pre ++ r.set sIdx (PyVal.pint newStatus) :: post) := by
  intro pre
  induction pre with
  | nil =>
    intro r post _ hr
    simp only [List.nil_append, findUpdate, if_pos hr]
  | cons q qs ih =>
    intro r post hpre hr
    have hq := hpre q (List.mem_cons_self _ _)
    simp only [List.cons_append, findUpdate, if_neg hq]
    simp only [List.append_eq]
    rw [ih r post (fun r' hr' => hpre r' (List.mem_cons_of_mem _ hr')) hr]
    rfl

theorem attach_step_skip (ch : Channel) (phone code : String)
    (mapping : List (String × List String)) (xpath : String) (s0 : Bool)
    (hc : code = "0" ∨ lookupA mapping code = none) :
    attach_step ch phone code mapping xpath s0 = ([], s0) := by
  unfold attach_step
  rcases hc with hc | hc
  · rw [if_neg (by simp [hc])]
  · by_cases h0 : code ≠ "0"
    · rw [if_pos h0, hc]
    · rw [if_neg h0]

theorem finish_contact_statusWrites_fail (ch : Channel)
    (phone doc_code media_code : String)
    (docs media : List (String × List String)) (st : Settings)
    (evs0 : List Ev) (hevs0 : statusWrites phone evs0 = [])
    (hatt : ∀ p f x, ch.attachFiles p f x = false) :
    statusWrites phone
      (finish_contact ch phone doc_code media_code docs media st evs0 false).1 =
      [STATUS_RETRY] := by
  rw [finish_contact_statusWrites ch phone doc_code media_code docs media st evs0 false hevs0]
  rw [attach_step_sent_of_fail phone doc_code docs st.xpath_docs false hatt]
  rw [attach_step_sent_of_fail phone media_code media st.xpath_media false hatt]
  rfl

theorem process_contact_soft_fail (ch : Channel) (σ : Nat → Nat) (c : Contact)
    (messages : List (String × String)) (docs media : List (String × List String))
    (st : Settings)
    (hnz : ¬(pyStripS c.msg_code = "0" ∧ pyStripS c.doc_code = "0" ∧
      pyStripS c.media_code = "0"))
    (hsend : ∀ p m, ch.sendText p m = SendResult.failed)
    (hatt : ∀ p f x, ch.attachFiles p f x = false)
    (hexc : (process_contact ch σ c messages docs media st).2 = none) :
    statusWrites c.phone (process_contact ch σ c messages docs media st).1 =
      [STATUS_RETRY] := by
  revert hexc
  simp only [process_contact]
  rw [if_neg hnz]
  by_cases hm : pyStripS c.msg_code ≠ "0"
  · rw [if_pos hm]
    cases hb : lookupA messages (pyStripS c.msg_code) with
    | none =>
      intro _
      exact finish_contact_statusWrites_fail ch c.phone _ _ docs media st [] rfl hatt
    | some enc =>
      simp only [send_text_message]
      cases hp : personalize_message σ enc c with
      | error e => intro h2; simp at h2
      | ok m =>
        dsimp only
        rw [hsend c.phone m]
        dsimp only
        intro _
        exact finish_contact_statusWrites_fail ch c.phone _ _ docs media st
          [Ev.sendTextEv c.phone] rfl hatt
  · rw [if_neg hm]
    intro _
    exact finish_contact_statusWrites_fail ch c.phone _ _ docs media st [] rfl hatt

/-! ### Concrete fixtures for counterexamples and witnesses -/

/-- A deterministic choice stream (always picks the first alternative). -/
def sigZero : Nat → Nat := fun _ => 0

/-- A per-contact family of deterministic choice streams. -/
def sigPair : Nat → Nat → Nat := fun _ _ => 0

/-- A channel on which every text send soft-fails and every attach fails. -/
def chFail : Channel := ⟨fun _ _ => SendResult.failed, fun _ _ _ => false⟩

/-- A channel on which text sends soft-fail but attaches succeed. -/
def chAttachOk : Channel := ⟨fun _ _ => SendResult.failed, fun _ _ _ => true⟩

/-- A channel on which every text send reports an invalid number. -/
def chInvalid : Channel := ⟨fun _ _ => SendResult.invalidNum, fun _ _ _ => true⟩

/-- Test settings (opaque selector strings). -/
def stTest : Settings := ⟨"xd", "xm"⟩

/-- A contact that ended pass 1 as RETRY, with a real message code. -/
def cRetry : Contact := ⟨"p1", "n", "s", "c", "1", "0", "0", some STATUS_RETRY⟩

/-- A template table with one plain template under code "1". -/
def msgsHello : List (String × String) := [("1", "hello")]

/-- A contact whose message code "9" is absent from the template table and
whose document/media codes are "0". -/
def cNoTemplate : Contact := ⟨"p2", "n", "s", "c", "9", "0", "0", none⟩

/-- A contact whose template has an unknown placeholder and whose document
code "7" is present in the document mapping. -/
def cBadField : Contact := ⟨"p3", "n", "s", "c", "1", "7", "0", none⟩

/-- A template table whose template under code "1" references the unknown
placeholder `foo`. -/
def msgsBadField : List (String × String) := [("1", "\x7bfoo\x7d")]

/-- A document mapping holding files under code "7". -/
def docsOne : List (String × List String) := [("7", ["f1"])]

/-- A media mapping holding files under code "8". -/
def mediaOne : List (String × List String) := [("8", ["m1"])]

/-- A contact with all three codes "0". -/
def cAllZero : Contact := ⟨"p4", "n", "s", "c", "0", "0", "0", none⟩

/-- A contact with a message code and both attachment codes present in
their mappings. -/
def cText : Contact := ⟨"p5", "n", "s", "c", "1", "7", "8", none⟩

/-- A sheet with one row whose phone is "111". -/
def sheetNoMatch : Sheet :=
  ⟨["Phone Number", "Status"], [[PyVal.pstr "111", PyVal.pnone]]⟩

/-- A sheet with two rows that both normalize to phone "5". -/
def sheetDup : Sheet :=
  ⟨["Phone Number", "Status"],
   [[PyVal.pstr "5", PyVal.pnone], [PyVal.pstr " 5 ", PyVal.pint 2]]⟩

/-! ### Claim theorems -/

/-- Claim C1, counterexample.  The claim states that a contact that ended
pass 1 as RETRY and fails again (softly) in the retry pass ends as
INVALID, never RETRY.  On the code, `retry_failed_contacts_thread` runs
the pass-agnostic `process_contact`, whose final write on a soft failure
is RETRY (line 545); INVALID is written only by the retry loop's
exception handler (line 629).  Concretely: a retry contact whose send
soft-fails ends the retry pass as RETRY. -/
theorem retry_finality_cex :
    lastStatus cRetry.phone
        (retry_failed_contacts_thread chFail sigPair msgsHello [] [] stTest 0 [cRetry]) =
      some STATUS_RETRY ∧ STATUS_RETRY ≠ STATUS_INVALID :=
  ⟨rfl, by decide⟩

/-- Claim C1, amended: in the retry pass a contact whose processing
completes without an uncaught exception, with every text send
soft-failing and every attach failing, is persisted as RETRY again (not
INVALID); the retry pass writes INVALID only when `process_contact`
raises. -/
theorem retry_pass_soft_fail_keeps_retry (ch : Channel) (σ : Nat → Nat → Nat)
    (c : Contact) (messages : List (String × String))
    (docs media : List (String × List String)) (st : Settings) (i : Nat)
    (hstat : c.status = some STATUS_RETRY)
    (hnz : ¬(pyStripS c.msg_code = "0" ∧ pyStripS c.doc_code = "0" ∧
      pyStripS c.media_code = "0"))
    (hsend : ∀ p m, ch.sendText p m = SendResult.failed)
    (hatt : ∀ p f x, ch.attachFiles p f x = false)
    (hexc : (process_contact ch (σ i) c messages docs media st).2 = none) :
    lastStatus c.phone
        (retry_failed_contacts_thread ch σ messages docs media st i [c]) =
      some STATUS_RETRY := by
  simp only [retry_failed_contacts_thread]
  rw [hexc]
  simp only [lastStatus, statusWrites_append]
  rw [process_contact_soft_fail ch (σ i) c messages docs media st hnz hsend hatt hexc]
  rfl

/-- Claim C1 witness: the amended theorem at a concrete retry contact. -/
theorem retry_pass_soft_fail_keeps_retry_witness :
    lastStatus cRetry.phone
        (retry_failed_contacts_thread chFail sigPair msgsHello [] [] stTest 0 [cRetry]) =
      some STATUS_RETRY :=
  retry_pass_soft_fail_keeps_retry chFail sigPair cRetry msgsHello [] [] stTest 0
    rfl (by decide) (fun _ _ => rfl) (fun _ _ _ => rfl) (by decide)

/-- Claim C2, counterexample.  The claim states that a contact whose
message code is unknown and whose doc/media codes are "0" gets no status
update at all.  On the code, `process_contact` falls through to the
unconditional final write (line 545) and persists RETRY. -/
theorem missing_template_cex :
    ¬ statusWrites cNoTemplate.phone
        (process_contact chFail sigZero cNoTemplate msgsHello [] [] stTest).1 = [] := by
  decide

/-- Claim C2, amended: a contact whose message code is not "0" but absent
from the template table, and whose document and media codes are "0" or
absent from their mappings, is persisted as RETRY (a single status write;
it is therefore revisited in pass 2). -/
theorem missing_template_status_retry (ch : Channel) (σ : Nat → Nat) (c : Contact)
    (messages : List (String × String)) (docs media : List (String × List String))
    (st : Settings)
    (hm : pyStripS c.msg_code ≠ "0")
    (hlook : lookupA messages (pyStripS c.msg_code) = none)
    (hdoc : pyStripS c.doc_code = "0" ∨ lookupA docs (pyStripS c.doc_code) = none)
    (hmed : pyStripS c.media_code = "0" ∨ lookupA media (pyStripS c.media_code) = none) :
    process_contact ch σ c messages docs media st =
      ([Ev.statusEv c.phone STATUS_RETRY], none) := by
  have hnall : ¬(pyStripS c.msg_code = "0" ∧ pyStripS c.doc_code = "0" ∧
      pyStripS c.media_code = "0") := fun h => hm h.1
  simp only [process_contact]
  rw [if_neg hnall, if_pos hm, hlook]
  dsimp only
  unfold finish_contact
  rw [attach_step_skip ch c.phone _ docs st.xpath_docs false hdoc]
  dsimp only
  rw [attach_step_skip ch c.phone _ media st.xpath_media false hmed]
  simp

/-- Claim C2 witness: the amended theorem at a concrete contact. -/
theorem missing_template_status_retry_witness :
    process_contact chFail sigZero cNoTemplate msgsHello [] [] stTest =
      ([Ev.statusEv cNoTemplate.phone STATUS_RETRY], none) :=
  missing_template_status_retry chFail sigZero cNoTemplate msgsHello [] [] stTest
    (by decide) (by decide) (Or.inl (by decide)) (Or.inl (by decide))

/-- Claim C3, counterexample.  The claim states that a failed template
render skips only the text sub-step, that the document/media sub-steps
are still attempted, and that no terminal status is forced.  On the code
`personalize_message` is called outside every try-block of
`send_text_message`, so the `KeyError` aborts `process_contact`; the
worker loop's handler then writes RETRY.  Concretely: unknown placeholder
`foo`, document code present and a channel whose attach would succeed —
yet zero attach calls happen and the contact is forced to RETRY. -/
theorem template_error_cex :
    attachCalls (process_contacts_thread chAttachOk sigPair msgsBadField docsOne []
        stTest 0 [cBadField]) = 0 ∧
    lastStatus cBadField.phone
        (process_contacts_thread chAttachOk sigPair msgsBadField docsOne []
          stTest 0 [cBadField]) = some STATUS_RETRY :=
  ⟨rfl, rfl⟩

/-- Claim C3, amended: when the render step fails (unknown placeholder),
`process_contact` aborts with that error having invoked no channel
operation at all, and the pass-1 worker loop catches it and forces RETRY
for the contact (document and media sub-steps are not attempted). -/
theorem template_error_aborts_contact (ch : Channel) (σ : Nat → Nat → Nat)
    (c : Contact) (messages : List (String × String))
    (docs media : List (String × List String)) (st : Settings) (i : Nat)
    (t e : String)
    (hm : pyStripS c.msg_code ≠ "0")
    (hlook : lookupA messages (pyStripS c.msg_code) = some t)
    (hren : personalize_message (σ i) t c = Except.error e)
    (hstat : ¬(c.status = some STATUS_INVALID ∨ c.status = some STATUS_SENT)) :
    process_contact ch (σ i) c messages docs media st = ([], some e) ∧
    process_contacts_thread ch σ messages docs media st i [c] =
      [Ev.statusEv c.phone STATUS_RETRY] := by
  have hnall : ¬(pyStripS c.msg_code = "0" ∧ pyStripS c.doc_code = "0" ∧
      pyStripS c.media_code = "0") := fun h => hm h.1
  have hproc : process_contact ch (σ i) c messages docs media st = ([], some e) := by
    simp only [process_contact]
    rw [if_neg hnall, if_pos hm, hlook]
    dsimp only
    simp only [send_text_message]
    rw [hren]
  refine ⟨hproc, ?_⟩
  simp only [process_contacts_thread]
  rw [if_neg hstat, hproc]
  simp [process_contacts_thread]

/-- Claim C3 witness: the amended theorem at the concrete bad template. -/
theorem template_error_aborts_contact_witness :
    process_contact chAttachOk (sigPair 0) cBadField msgsBadField docsOne [] stTest =
      ([], some "foo") ∧
    process_contacts_thread chAttachOk sigPair msgsBadField docsOne [] stTest 0
        [cBadField] = [Ev.statusEv cBadField.phone STATUS_RETRY] :=
  template_error_aborts_contact chAttachOk sigPair cBadField msgsBadField docsOne []
    stTest 0 "\x7bfoo\x7d" "foo" (by decide) (by decide) rfl (by decide)

/-- Claim C4: a contact whose message, document and media codes are all
"0" is persisted as SENT immediately, with zero channel invocations. -/
theorem bulk_noop_sent (ch : Channel) (σ : Nat → Nat) (c : Contact)
    (messages : List (String × String)) (docs media : List (String × List String))
    (st : Settings)
    (h0 : pyStripS c.msg_code = "0" ∧ pyStripS c.doc_code = "0" ∧
      pyStripS c.media_code = "0") :
    process_contact ch σ c messages docs media st =
      ([Ev.statusEv c.phone STATUS_SENT], none) ∧
    channelCalls (process_contact ch σ c messages docs media st).1 = 0 := by
  have hproc : process_contact ch σ c messages docs media st =
      ([Ev.statusEv c.phone STATUS_SENT], none) := by
    simp only [process_contact]
    rw [if_pos h0]
  exact ⟨hproc, by rw [hproc]; rfl⟩

/-- Claim C4 witness: the theorem at a concrete all-zero contact, on a
channel that would otherwise send and attach. -/
theorem bulk_noop_sent_witness :
    process_contact chInvalid sigZero cAllZero msgsHello docsOne mediaOne stTest =
      ([Ev.statusEv cAllZero.phone STATUS_SENT], none) ∧
    channelCalls
        (process_contact chInvalid sigZero cAllZero msgsHello docsOne mediaOne stTest).1 = 0 :=
  bulk_noop_sent chInvalid sigZero cAllZero msgsHello docsOne mediaOne stTest (by decide)

/-- Claim C5: when the text send reports an invalid number, the worker
immediately persists INVALID and stops processing the contact: the trace
is exactly the send invocation followed by the single INVALID write, with
no attach invocation, and the pass-1 loop adds nothing further. -/
theorem invalid_send_stops_contact (ch : Channel) (σ : Nat → Nat → Nat)
    (c : Contact) (messages : List (String × String))
    (docs media : List (String × List String)) (st : Settings) (i : Nat)
    (t m : String)
    (hm : pyStripS c.msg_code ≠ "0")
    (hlook : lookupA messages (pyStripS c.msg_code) = some t)
    (hren : personalize_message (σ i) t c = Except.ok m)
    (hsend : ch.sendText c.phone m = SendResult.invalidNum)
    (hstat : ¬(c.status = some STATUS_INVALID ∨ c.status = some STATUS_SENT)) :
    process_contact ch (σ i) c messages docs media st =
      ([Ev.sendTextEv c.phone, Ev.statusEv c.phone STATUS_INVALID], none) ∧
    attachCalls (process_contact ch (σ i) c messages docs media st).1 = 0 ∧
    process_contacts_thread ch σ messages docs media st i [c] =
      [Ev.sendTextEv c.phone, Ev.statusEv c.phone STATUS_INVALID] := by
  have hnall : ¬(pyStripS c.msg_code = "0" ∧ pyStripS c.doc_code = "0" ∧
      pyStripS c.media_code = "0") := fun h => hm h.1
  have hproc : process_contact ch (σ i) c messages docs media st =
      ([Ev.sendTextEv c.phone, Ev.statusEv c.phone STATUS_INVALID], none) := by
    simp only [process_contact]
    rw [if_neg hnall, if_pos hm, hlook]
    dsimp only
    simp only [send_text_message]
    rw [hren]
    dsimp only
    rw [hsend]
  refine ⟨hproc, by rw [hproc]; rfl, ?_⟩
  simp only [process_contacts_thread]
  rw [if_neg hstat, hproc]
  simp [process_contacts_thread]

/-- Claim C5 witness: the theorem at a concrete contact with document and
media codes present in their mappings, on the invalid-number channel. -/
theorem invalid_send_stops_contact_witness :
    process_contact chInvalid (sigPair 0) cText msgsHello docsOne mediaOne stTest =
      ([Ev.sendTextEv cText.phone, Ev.statusEv cText.phone STATUS_INVALID], none) ∧
    attachCalls
        (process_contact chInvalid (sigPair 0) cText msgsHello docsOne mediaOne stTest).1 = 0 ∧
    process_contacts_thread chInvalid sigPair msgsHello docsOne mediaOne stTest 0
        [cText] = [Ev.sendTextEv cText.phone, Ev.statusEv cText.phone STATUS_INVALID] :=
  invalid_send_stops_contact chInvalid sigPair cText msgsHello docsOne mediaOne stTest 0
    "hello" "hello" (by decide) (by decide) rfl rfl (by decide)

/-- Claim C6: the partition `contacts.iloc[::2]` / `contacts.iloc[1::2]`
takes exactly the even-indexed and odd-indexed rows, in order; the first
part has ceil(N/2) rows; together they are a permutation of the input;
and, viewed on the index-carrying rows (`enum`), the two parts are
disjoint. -/
theorem send_messages_partition_law {α : Type} (l : List α) :
    (∀ i, (even_contacts l).get? i = l.get? (2 * i)) ∧
    (∀ i, (odd_contacts l).get? i = l.get? (2 * i + 1)) ∧
    (even_contacts l).length = (l.length + 1) / 2 ∧
    (odd_contacts l).length = l.length / 2 ∧
    (even_contacts l ++ odd_contacts l).Perm l ∧
    List.Disjoint (even_contacts l.enum) (odd_contacts l.enum) := by
  refine ⟨even_contacts_get? l, odd_contacts_get? l, even_contacts_length l,
    odd_contacts_length l, even_append_odd_perm l, ?_⟩
  intro p hp hq
  have h1 := even_contacts_enumFrom_parity l 0 p (by simpa [List.enum] using hp)
  have h2 := odd_contacts_enumFrom_parity l 0 p (by simpa [List.enum] using hq)
  omega

/-- Claim C7: an `update_excel_status` call whose phone matches no row
(under `normalize_value`) leaves the persisted sheet exactly as it was
and performs no save. -/
theorem update_status_no_match_noop (sh : Sheet) (phone : String) (newStatus : Int)
    (h : ∀ r ∈ sh.rows,
      normalize_value (r.getD (sh.headers.indexOf "Phone Number") PyVal.pnone) ≠ phone) :
    update_excel_status sh phone newStatus = (sh, false) := by
  unfold update_excel_status
  rw [findUpdate_of_no_match _ _ _ _ sh.rows h]

/-- Claim C7 witness: the theorem at a concrete one-row sheet and an
absent phone. -/
theorem update_status_no_match_noop_witness :
    update_excel_status sheetNoMatch "999" 1 = (sheetNoMatch, false) :=
  update_status_no_match_noop sheetNoMatch "999" 1 (by decide)

/-- Claim C8: resolving the variation group "[a|b]" yields exactly "a" or
"b" (stripped alternatives), and for every input the resolver's output
contains no residual variation group. -/
theorem parse_spintax_variation :
    (∀ σ, parse_spintax σ "[a|b]" = "a" ∨ parse_spintax σ "[a|b]" = "b") ∧
    ∀ σ s, hasGroup (parse_spintax σ s).data = false := by
  constructor
  · intro σ
    rw [parse_spintax_ab σ]
    rcases Nat.mod_two_eq_zero_or_one (σ 0) with h | h
    · left; rw [h]; rfl
    · right; rw [h]; rfl
  · intro σ s
    show hasGroup (parse_spintaxL σ s.data) = false
    exact spintaxFuel_no_group σ (countBr s.data) 0 s.data (Nat.le_refl _)

/-- Claim C9: when several rows normalize to the updated phone,
`update_excel_status` mutates the status cell of only the first matching
row (the loop breaks); every earlier row, every later row, and every
other cell of the mutated row are unchanged, and the workbook is saved. -/
theorem update_status_first_match_only (sh : Sheet) (phone : String) (newStatus : Int)
    (pre : List (List PyVal)) (r : List PyVal) (post : List (List PyVal))
    (hrows : sh.rows = pre ++ r :: post)
    (hpre : ∀ r' ∈ pre,
      normalize_value (r'.getD (sh.headers.indexOf "Phone Number") PyVal.pnone) ≠ phone)
    (hr : normalize_value (r.getD (sh.headers.indexOf "Phone Number") PyVal.pnone) = phone)
    (hdup : ∃ r2 ∈ post,
      normalize_value (r2.getD (sh.headers.indexOf "Phone Number") PyVal.pnone) = phone) :
    update_excel_status sh phone newStatus =
      ({ sh with rows :=
          pre ++ r.set (sh.headers.indexOf "Status") (PyVal.pint newStatus) :: post }, true) ∧
    ∀ j, j ≠ sh.headers.indexOf "Status" →
      (r.set (sh.headers.indexOf "Status") (PyVal.pint newStatus)).getD j PyVal.pnone =
        r.getD j PyVal.pnone := by
  constructor
  · unfold update_excel_status
    rw [hrows, findUpdate_first_match _ _ _ _ pre r post hpre hr]
  · intro j hj
    simp [List.getD, List.getElem?_set_ne (Ne.symm hj)]

/-- Claim C9 witness: the theorem at a concrete two-row sheet whose rows
both normalize to phone "5". -/
theorem update_status_first_match_only_witness :
    update_excel_status sheetDup "5" 1 =
      ({ sheetDup with rows :=
          [[PyVal.pstr "5", PyVal.pint 1], [PyVal.pstr " 5 ", PyVal.pint 2]] }, true) :=
  (update_status_first_match_only sheetDup "5" 1 [] [PyVal.pstr "5", PyVal.pnone]
    [[PyVal.pstr " 5 ", PyVal.pint 2]] rfl (by decide) (by decide)
    ⟨[PyVal.pstr " 5 ", PyVal.pint 2], by decide, by decide⟩).1

/-- Claim C10: the spintax rescan loop terminates on every finite input:
whenever a group is present, one substitution pass removes at least two
bracket characters, and consequently `countBr l` iterations always reach
the loop's exit condition — iterating beyond that bound changes nothing. -/
theorem parse_spintax_terminates (σ : Nat → Nat) (k : Nat) (l : List Char) :
    (hasGroup l = true → countBr (subAll σ k l).1 + 2 ≤ countBr l) ∧
    hasGroup (spintaxFuel σ (countBr l) k l).1 = false ∧
    ∀ m, spintaxFuel σ (countBr l + m) k l = spintaxFuel σ (countBr l) k l :=
  ⟨fun hg => subAll_countBr_add_two σ k l hg,
   spintaxFuel_no_group σ (countBr l) k l (Nat.le_refl _),
   fun m => spintaxFuel_fuel_congr σ (countBr l) k l m (Nat.le_refl _)⟩

/-- Claim C10 witness: the theorem at the concrete input "[]", its
group-presence hypothesis discharged by computation. -/
theorem parse_spintax_terminates_witness :
    countBr (subAll sigZero 0 ['[', ']']).1 + 2 ≤ countBr ['[', ']'] ∧
    hasGroup (spintaxFuel sigZero (countBr ['[', ']']) 0 ['[', ']']).1 = false :=
  ⟨(parse_spintax_terminates sigZero 0 ['[', ']']).1 (by decide),
   (parse_spintax_terminates sigZero 0 ['[', ']']).2.1⟩

end ExcelBlaster
